import Mathlib

/-!
Verification development for the home-network-monitor backend.

The definitions below are a shallow embedding of the Python sources:
  - src/backend/app/services/ping_service.py   (PingService.execute_ping)
  - src/backend/app/repositories/ping_repository.py (PingRepository)
  - src/backend/app/services/cleanup_service.py (CleanupService)
  - src/backend/app/routers/api.py             (add_host route)
  - src/backend/app/config/database.py         (Database.execute_update)

Machine reals (Python floats holding millisecond latencies) are modelled
by exact rationals; Python round(x, 2) is modelled by round-half-to-even
at two decimal places; SQLite tables are modelled as lists of rows in
insertion order, with SQL aggregate semantics (NULL-skipping AVG/MIN/MAX)
made explicit.
-/

namespace NetMon

/-- Round-half-to-even of a rational to an integer, Python round(x) style. -/
def rhe (q : ℚ) : ℤ :=
  let f : ℤ := ⌊q⌋
  if q - f < 1/2 then f
  else if q - f > 1/2 then f + 1
  else if f % 2 = 0 then f else f + 1

/-- Python round(x, 2): round-half-to-even at two decimal places. -/
def round2 (q : ℚ) : ℚ := (rhe (q * 100) : ℚ) / 100

/-- Outcome of one transport-level ping attempt, as seen by
PingService.execute_ping: the pythonping call either returns a reply with
response.success() true (carrying a round-trip time), returns with
success() false (timeout / unreachable, no exception), or raises. -/
inductive PingOutcome where
  | success (rtt : ℚ)
  | softFail
  | hardFail (msg : String)
deriving Repr, DecidableEq

/-- Is the outcome a successful echo? -/
def PingOutcome.isSuccess : PingOutcome → Bool
  | .success _ => true
  | _ => false

/-- PingResult from src/backend/app/models/schemas.py: also the row shape
of the ping_results table (success stored as 0/1 and read back as bool,
which round-trips). -/
structure PingResult where
  host : String
  timestamp : ℤ
  latency : Option ℚ
  success : Bool
  error : Option String
deriving Repr, DecidableEq

/-- The retry loop of PingService.execute_ping, instrumented with the
number of transport attempts actually performed.  The transport oracle t
gives the outcome of attempt number i.  The Python loop is
for attempt in range(retries + 1); here remaining = retries + 1 - attempt,
so the Python guard attempt < retries is remaining different from 1.
The remaining = 0 base case is the unreachable fall-through after the loop
(the code returns error "Maximum retries exceeded" there). -/
def execute_ping_loop (t : ℕ → PingOutcome) (host : String) (ts : ℤ) :
    ℕ → ℕ → PingResult × ℕ
  | _, 0 => (⟨host, ts, none, false, some "Maximum retries exceeded"⟩, 0)
  | attempt, remaining + 1 =>
    match t attempt with
    | .success rtt => (⟨host, ts, some (round2 rtt), true, none⟩, 1)
    | .softFail =>
      if remaining = 0 then
        (⟨host, ts, none, false, some "Host unreachable or timeout"⟩, 1)
      else
        let r := execute_ping_loop t host ts (attempt + 1) remaining
        (r.1, r.2 + 1)
    | .hardFail msg =>
      if remaining = 0 then
        (⟨host, ts, none, false, some msg⟩, 1)
      else
        let r := execute_ping_loop t host ts (attempt + 1) remaining
        (r.1, r.2 + 1)

/-- PingService.execute_ping: run the retry loop from attempt 0 with
retries + 1 attempts available; timestamp ts is captured once, before the
first attempt, and reused in every returned result. -/
def execute_ping (t : ℕ → PingOutcome) (retries : ℕ) (host : String) (ts : ℤ) :
    PingResult :=
  (execute_ping_loop t host ts 0 (retries + 1)).1

/-- Number of transport attempts performed by PingService.execute_ping. -/
def execute_ping_attempts (t : ℕ → PingOutcome) (retries : ℕ) (host : String) (ts : ℤ) :
    ℕ :=
  (execute_ping_loop t host ts 0 (retries + 1)).2

example :
    execute_ping (fun _ => .softFail) 2 "h" 0 =
      ⟨"h", 0, none, false, some "Host unreachable or timeout"⟩ := by decide

example : execute_ping_attempts (fun _ => .softFail) 2 "h" 0 = 3 := by decide

example :
    execute_ping (fun _ => .success 10) 2 "h" 0 =
      ⟨"h", 0, some (round2 10), true, none⟩ := rfl

example :
    execute_ping (fun i => if i = 0 then .hardFail "boom" else .success (1/2)) 2 "h" 7 =
      ⟨"h", 7, some (round2 (1/2)), true, none⟩ := rfl

/-- A row of the hosts table (src/backend/app/config/database.py SCHEMA):
id INTEGER PRIMARY KEY AUTOINCREMENT, hostname TEXT UNIQUE,
display_name TEXT, enabled INTEGER, created_at INTEGER. -/
structure HostRow where
  id : ℕ
  hostname : String
  display_name : String
  enabled : Bool
  created_at : ℤ
deriving Repr, DecidableEq

/-- The SQLite database state: the two tables as lists of rows in
insertion order, plus the AUTOINCREMENT counter for hosts.id. -/
structure DB where
  pings : List PingResult
  hosts : List HostRow
  nextHostId : ℕ
deriving Repr, DecidableEq

/-- The WHERE clause of get_ping_data and calculate_stats:
host = ? AND timestamp BETWEEN ? AND ? (SQL BETWEEN is inclusive). -/
def pingMatch (host : String) (s e : ℤ) (p : PingResult) : Bool :=
  p.host == host && decide (s ≤ p.timestamp) && decide (p.timestamp ≤ e)

/-- PingRepository.insert_ping_result: INSERT one row (appends; success is
stored as 0/1 and read back as bool, which round-trips, so we keep the
row as-is). -/
def insert_ping_result (db : DB) (r : PingResult) : DB :=
  { db with pings := db.pings ++ [r] }

/-- Ordering by the timestamp column, for ORDER BY timestamp ASC. -/
def tsLE (a b : PingResult) : Prop := a.timestamp ≤ b.timestamp

instance : DecidableRel tsLE := fun a b => Int.decLe a.timestamp b.timestamp

instance : IsTotal PingResult tsLE := ⟨fun a b => Int.le_total a.timestamp b.timestamp⟩

instance : IsTrans PingResult tsLE := ⟨fun _ _ _ h h2 => le_trans h h2⟩

/-- PingRepository.get_ping_data: SELECT rows WHERE host = ? AND timestamp
BETWEEN start AND end ORDER BY timestamp ASC LIMIT limit.  Modelled as a
stable sort by timestamp of the matching rows, truncated to limit. -/
def get_ping_data (db : DB) (host : String) (start_time end_time : ℤ)
    (limit : ℕ) : List PingResult :=
  (List.insertionSort tsLE (db.pings.filter (pingMatch host start_time end_time))).take
    limit

/-- PingRepository.get_host_by_id: SELECT WHERE id = ?, first row or None. -/
def get_host_by_id (db : DB) (host_id : ℕ) : Option HostRow :=
  db.hosts.find? (fun h => h.id == host_id)

/-- PingRepository.get_host_by_hostname: SELECT WHERE hostname = ?,
first row or None. -/
def get_host_by_hostname (db : DB) (hostname : String) : Option HostRow :=
  db.hosts.find? (fun h => h.hostname == hostname)

/-- PingRepository.add_host: INSERT INTO hosts (hostname, display_name,
enabled, created_at) VALUES (?, ?, 1, now); returns the created Host with
id = lastrowid.  now is the clock reading int(time.time() * 1000). -/
def add_host (db : DB) (now : ℤ) (hostname display_name : String) :
    DB × HostRow :=
  let h : HostRow := ⟨db.nextHostId, hostname, display_name, true, now⟩
  ({ pings := db.pings, hosts := db.hosts ++ [h], nextHostId := db.nextHostId + 1 }, h)

/-- Errors surfaced by the API layer (routers/api.py): 409 Conflict for a
duplicate hostname, 404 NotFound for an unknown host id. -/
inductive ApiError where
  | conflict
  | notFound
deriving Repr, DecidableEq

/-- The add_host route (routers/api.py): check get_host_by_hostname first;
if a host exists raise 409 ConflictError, else insert via
PingRepository.add_host.  Returns the outcome and the resulting state. -/
def add_host_api (db : DB) (now : ℤ) (hostname display_name : String) :
    Except ApiError HostRow × DB :=
  match get_host_by_hostname db hostname with
  | some _ => (.error .conflict, db)
  | none =>
    let r := add_host db now hostname display_name
    (.ok r.2, r.1)

/-- Outcome of PingRepository.delete_host under the fault model: ok carries
the final state and the returned bool; err means a DELETE statement raised
(StorageIOError), carrying the state committed so far — each
Database.execute_update call opens its own connection and commits
independently, so earlier statements stay committed. -/
inductive DelOutcome where
  | ok (db : DB) (deleted : Bool)
  | err (db : DB)
deriving Repr, DecidableEq

/-- The database state visible after a delete_host execution. -/
def DelOutcome.state : DelOutcome → DB
  | .ok db _ => db
  | .err db => db

/-- PingRepository.delete_host: look up the host by id; if absent return
False; otherwise DELETE FROM ping_results WHERE host = hostname, then
DELETE FROM hosts WHERE id = ?, and return True.  f1 and f2 say whether
the first and second DELETE raise; a failing statement rolls back only
itself (per-call transaction in Database.get_connection). -/
def delete_host (f1 f2 : Bool) (db : DB) (host_id : ℕ) : DelOutcome :=
  match get_host_by_id db host_id with
  | none => .ok db false
  | some h =>
    if f1 then .err db
    else
      let db1 : DB :=
        { db with pings := db.pings.filter (fun p => !(p.host == h.hostname)) }
      if f2 then .err db1
      else
        .ok { db1 with hosts := db1.hosts.filter (fun x => !(x.id == host_id)) } true

/-- PingRepository.delete_old_pings, with the cutoff
int((time.time() - retention_days * 86400) * 1000) taken as a parameter:
SELECT COUNT(*) WHERE timestamp < cutoff, then DELETE the same rows,
returning the count. -/
def delete_old_pings (db : DB) (cutoff : ℤ) : ℕ × DB :=
  let count := (db.pings.filter (fun p => decide (p.timestamp < cutoff))).length
  (count, { db with pings := db.pings.filter (fun p => !decide (p.timestamp < cutoff)) })

example :
    delete_old_pings ⟨[⟨"a", 1, none, false, some "e"⟩, ⟨"a", 5, none, false, some "e"⟩],
      [], 1⟩ 3 =
      (1, ⟨[⟨"a", 5, none, false, some "e"⟩], [], 1⟩) := by decide

example :
    delete_host false false ⟨[⟨"h", 5, none, false, some "e"⟩],
      [⟨1, "h", "H", true, 0⟩], 2⟩ 1 = .ok ⟨[], [], 2⟩ true := by decide

example :
    delete_host false true ⟨[⟨"h", 5, none, false, some "e"⟩],
      [⟨1, "h", "H", true, 0⟩], 2⟩ 1 = .err ⟨[], [⟨1, "h", "H", true, 0⟩], 2⟩ := by
  decide

/-- SQL AVG over a column: NULL when no non-NULL value, else the mean of
the non-NULL values. -/
def sqlAvg (ls : List ℚ) : Option ℚ :=
  if ls.isEmpty then none else some (ls.sum / ls.length)

/-- SQL MIN over a column: NULL when no non-NULL value. -/
def sqlMin : List ℚ → Option ℚ
  | [] => none
  | x :: xs => some (xs.foldl min x)

/-- SQL MAX over a column: NULL when no non-NULL value. -/
def sqlMax : List ℚ → Option ℚ
  | [] => none
  | x :: xs => some (xs.foldl max x)

/-- The stats dictionary returned by PingRepository.calculate_stats. -/
structure Stats where
  avg_latency : Option ℚ
  min_latency : Option ℚ
  max_latency : Option ℚ
  success_rate : ℚ
deriving Repr, DecidableEq

/-- The Python formatting round(v, 2) if v else None applied to an SQL
aggregate: None stays None, and a zero aggregate is also mapped to None
because 0.0 is falsy. -/
def fmtLat : Option ℚ → Option ℚ
  | none => none
  | some a => if a = 0 then none else some (round2 a)

/-- PingRepository.calculate_stats: one aggregate SELECT over the rows
WHERE host = ? AND timestamp BETWEEN ? AND ? computing AVG/MIN/MAX of the
latency column (NULL-skipping), COUNT(*), and SUM(success = 1); if the
count is 0 all latency fields are None and success_rate is 0.0, else
success_rate = round(successful / total * 100, 2) and each latency
aggregate is formatted with round(v, 2) if v else None. -/
def calculate_stats (db : DB) (host : String) (start_time end_time : ℤ) :
    Stats :=
  let rows := db.pings.filter (pingMatch host start_time end_time)
  let total := rows.length
  let successful := (rows.filter (fun p => p.success)).length
  let lats := rows.filterMap (fun p => p.latency)
  if total = 0 then ⟨none, none, none, 0⟩
  else
    ⟨fmtLat (sqlAvg lats), fmtLat (sqlMin lats), fmtLat (sqlMax lats),
      round2 ((successful : ℚ) / (total : ℚ) * 100)⟩

/-- The dictionary returned by CleanupService.cleanup_now; Option models
presence of the key in the dict (the failure branch has no timestamp key).
The timestamp value datetime.now().isoformat() is modelled by the clock
reading now. -/
structure CleanupResult where
  success : Bool
  deleted_count : Option ℕ
  timestamp : Option ℤ
  error : Option String
deriving Repr, DecidableEq

/-- The dictionary returned by CleanupService.vacuum_now. -/
structure VacuumResult where
  success : Bool
  timestamp : Option ℤ
  error : Option String
deriving Repr, DecidableEq

/-- CleanupService.cleanup_now: try delete_old_pings — op is its outcome,
ok with the deleted count, or error e when it raises — and wrap in the
structured dict; the except-branch returns success False, the error text
and deleted_count 0, with no timestamp key. -/
def cleanup_now (op : Except String ℕ) (now : ℤ) : CleanupResult :=
  match op with
  | .ok n => ⟨true, some n, some now, none⟩
  | .error e => ⟨false, some 0, none, some e⟩

/-- CleanupService.vacuum_now: try db.vacuum() — op is its outcome — and
wrap in the structured dict; the except-branch returns success False and
the error text, with no timestamp key. -/
def vacuum_now (op : Except String Unit) (now : ℤ) : VacuumResult :=
  match op with
  | .ok _ => ⟨true, some now, none⟩
  | .error e => ⟨false, none, some e⟩

example :
    calculate_stats ⟨[⟨"h", 5, some (round2 10), true, none⟩], [], 1⟩ "h" 0 10 =
      ⟨fmtLat (sqlAvg [round2 10]), fmtLat (sqlMin [round2 10]),
        fmtLat (sqlMax [round2 10]), round2 ((1 : ℚ) / (1 : ℚ) * 100)⟩ := rfl

example : calculate_stats ⟨[], [], 1⟩ "h" 0 10 = ⟨none, none, none, 0⟩ := rfl

/-! ### Lemmas about the retry loop of PingService.execute_ping -/

theorem execute_ping_loop_count_le (t : ℕ → PingOutcome) (host : String) (ts : ℤ) :
    ∀ remaining attempt, (execute_ping_loop t host ts attempt remaining).2 ≤ remaining := by
  intro remaining
  induction remaining with
  | zero => intro attempt; simp [execute_ping_loop]
  | succ n ih =>
    intro attempt
    simp only [execute_ping_loop]
    cases t attempt with
    | success rtt => simp
    | softFail =>
      by_cases h : n = 0
      · simp [h]
      · simpa [h] using Nat.succ_le_succ (ih (attempt + 1))
    | hardFail msg =>
      by_cases h : n = 0
      · simp [h]
      · simpa [h] using Nat.succ_le_succ (ih (attempt + 1))

theorem execute_ping_loop_count_allfail (t : ℕ → PingOutcome) (host : String) (ts : ℤ)
    (hfail : ∀ i, (t i).isSuccess = false) :
    ∀ remaining attempt, (execute_ping_loop t host ts attempt remaining).2 = remaining := by
  intro remaining
  induction remaining with
  | zero => intro attempt; simp [execute_ping_loop]
  | succ n ih =>
    intro attempt
    simp only [execute_ping_loop]
    cases ht : t attempt with
    | success rtt => exact absurd (hfail attempt) (by simp [ht, PingOutcome.isSuccess])
    | softFail =>
      by_cases h : n = 0
      · simp [h]
      · simp [h, ih (attempt + 1)]
    | hardFail msg =>
      by_cases h : n = 0
      · simp [h]
      · simp [h, ih (attempt + 1)]

theorem execute_ping_loop_res_allfail (t : ℕ → PingOutcome) (host : String) (ts : ℤ)
    (hfail : ∀ i, (t i).isSuccess = false) :
    ∀ remaining attempt,
      (execute_ping_loop t host ts attempt remaining).1.success = false ∧
        ((execute_ping_loop t host ts attempt remaining).1.error).isSome = true := by
  intro remaining
  induction remaining with
  | zero => intro attempt; simp [execute_ping_loop]
  | succ n ih =>
    intro attempt
    simp only [execute_ping_loop]
    cases ht : t attempt with
    | success rtt => exact absurd (hfail attempt) (by simp [ht, PingOutcome.isSuccess])
    | softFail =>
      by_cases h : n = 0
      · simp [h]
      · simpa [h] using ih (attempt + 1)
    | hardFail msg =>
      by_cases h : n = 0
      · simp [h]
      · simpa [h] using ih (attempt + 1)

theorem execute_ping_loop_allsoft (t : ℕ → PingOutcome) (host : String) (ts : ℤ)
    (hsoft : ∀ i, t i = .softFail) :
    ∀ remaining attempt, remaining ≠ 0 →
      (execute_ping_loop t host ts attempt remaining).1 =
        ⟨host, ts, none, false, some "Host unreachable or timeout"⟩ := by
  intro remaining
  induction remaining with
  | zero => intro attempt h; exact absurd rfl h
  | succ n ih =>
    intro attempt _
    simp only [execute_ping_loop, hsoft attempt]
    by_cases h : n = 0
    · simp [h]
    · simpa [h] using ih (attempt + 1) h

theorem execute_ping_loop_invariant (t : ℕ → PingOutcome) (host : String) (ts : ℤ) :
    ∀ remaining attempt,
      ((execute_ping_loop t host ts attempt remaining).1.success = true →
        ((execute_ping_loop t host ts attempt remaining).1.latency).isSome = true) ∧
      ((execute_ping_loop t host ts attempt remaining).1.success = false →
        (execute_ping_loop t host ts attempt remaining).1.latency = none ∧
          ((execute_ping_loop t host ts attempt remaining).1.error).isSome = true) := by
  intro remaining
  induction remaining with
  | zero => intro attempt; simp [execute_ping_loop]
  | succ n ih =>
    intro attempt
    simp only [execute_ping_loop]
    cases t attempt with
    | success rtt => simp
    | softFail =>
      by_cases h : n = 0
      · simp [h]
      · simpa [h] using ih (attempt + 1)
    | hardFail msg =>
      by_cases h : n = 0
      · simp [h]
      · simpa [h] using ih (attempt + 1)

/-! ### Claims C3, C4, C8 -/

/-- Claim C3 (amended): when every attempt of PingService.execute_ping ends
in a soft failure (reply missing or timeout with no exception) and retries
are exhausted, the returned result has success false, no latency, and its
error field is exactly the text "Host unreachable or timeout" (not the
spec text "unreachable or timeout"). -/
theorem execute_ping_soft_exhaustion (t : ℕ → PingOutcome) (retries : ℕ)
    (host : String) (ts : ℤ) (hsoft : ∀ i, t i = .softFail) :
    execute_ping t retries host ts =
      ⟨host, ts, none, false, some "Host unreachable or timeout"⟩ :=
  execute_ping_loop_allsoft t host ts hsoft (retries + 1) 0 (Nat.succ_ne_zero retries)

/-- Witness for C3: concrete all-soft-failing transport with two retries. -/
theorem execute_ping_soft_exhaustion_witness :
    execute_ping (fun _ => PingOutcome.softFail) 2 "h" 0 =
      ⟨"h", 0, none, false, some "Host unreachable or timeout"⟩ :=
  execute_ping_soft_exhaustion (fun _ => PingOutcome.softFail) 2 "h" 0 (fun _ => rfl)

/-- Counterexample for C3 as stated: on soft-failure exhaustion the error
text is "Host unreachable or timeout", not exactly "unreachable or
timeout". -/
theorem execute_ping_error_text_ne :
    (execute_ping (fun _ => PingOutcome.softFail) 2 "h" 0).error ≠
        some "unreachable or timeout" ∧
      (execute_ping (fun _ => PingOutcome.softFail) 2 "h" 0).error =
        some "Host unreachable or timeout" := by
  decide

/-- Claim C4: PingService.execute_ping performs at most retries + 1
transport attempts, and against a transport that fails every attempt it
performs exactly retries + 1 attempts and returns success false with a
non-null error. -/
theorem execute_ping_attempt_bound (t : ℕ → PingOutcome) (retries : ℕ)
    (host : String) (ts : ℤ) :
    execute_ping_attempts t retries host ts ≤ retries + 1 ∧
      ((∀ i, (t i).isSuccess = false) →
        execute_ping_attempts t retries host ts = retries + 1 ∧
          (execute_ping t retries host ts).success = false ∧
          (execute_ping t retries host ts).error ≠ none) := by
  refine ⟨execute_ping_loop_count_le t host ts (retries + 1) 0, fun hfail => ?_⟩
  refine ⟨execute_ping_loop_count_allfail t host ts hfail (retries + 1) 0, ?_, ?_⟩
  · exact (execute_ping_loop_res_allfail t host ts hfail (retries + 1) 0).1
  · have h := (execute_ping_loop_res_allfail t host ts hfail (retries + 1) 0).2
    intro hnone
    rw [execute_ping] at hnone
    rw [hnone] at h
    exact Bool.noConfusion h

/-- Witness for C4: an always-soft-failing transport with maxRetries = 2
performs exactly 3 attempts and fails with a non-null error. -/
theorem execute_ping_attempt_bound_witness :
    execute_ping_attempts (fun _ => PingOutcome.softFail) 2 "h" 0 = 3 ∧
      (execute_ping (fun _ => PingOutcome.softFail) 2 "h" 0).success = false ∧
      (execute_ping (fun _ => PingOutcome.softFail) 2 "h" 0).error ≠ none :=
  (execute_ping_attempt_bound (fun _ => PingOutcome.softFail) 2 "h" 0).2 (fun _ => rfl)

/-- Claim C8: every result produced by PingService.execute_ping satisfies
the data-model invariant: success true implies latency is present, and
success false implies latency is absent and error is present. -/
theorem execute_ping_result_invariant (t : ℕ → PingOutcome) (retries : ℕ)
    (host : String) (ts : ℤ) :
    ((execute_ping t retries host ts).success = true →
      ((execute_ping t retries host ts).latency).isSome = true) ∧
    ((execute_ping t retries host ts).success = false →
      (execute_ping t retries host ts).latency = none ∧
        ((execute_ping t retries host ts).error).isSome = true) :=
  execute_ping_loop_invariant t host ts (retries + 1) 0

/-- Witness for C8: both implications discharged on concrete transports. -/
theorem execute_ping_result_invariant_witness :
    ((execute_ping (fun _ => PingOutcome.success 10) 1 "g" 5).latency).isSome = true ∧
      (execute_ping (fun _ => PingOutcome.softFail) 1 "g" 5).latency = none ∧
        ((execute_ping (fun _ => PingOutcome.softFail) 1 "g" 5).error).isSome = true :=
  ⟨(execute_ping_result_invariant (fun _ => PingOutcome.success 10) 1 "g" 5).1 rfl,
    (execute_ping_result_invariant (fun _ => PingOutcome.softFail) 1 "g" 5).2 rfl⟩

/-! ### Claim C1: delete_host -/

/-- Claim C1 (amended): delete_host returns False exactly when no host
with that id exists (and then leaves the state unchanged); a fault-free
execution deletes all probe rows for the hostname and then the host row;
and in every execution, also a faulting one, a state with the host row
gone but probe rows remaining is never observable.  (The converse partial
state is observable, see the counterexample: the two DELETEs commit
separately.) -/
theorem delete_host_cascade (db : DB) (host_id : ℕ) (f1 f2 : Bool) :
    (get_host_by_id db host_id = none →
      delete_host f1 f2 db host_id = .ok db false) ∧
    (∀ h, get_host_by_id db host_id = some h →
      delete_host false false db host_id =
          .ok ⟨db.pings.filter (fun p => !(p.host == h.hostname)),
            db.hosts.filter (fun x => !(x.id == host_id)), db.nextHostId⟩ true ∧
        ((∀ x ∈ (delete_host f1 f2 db host_id).state.hosts, x.id ≠ host_id) →
          ∀ p ∈ (delete_host f1 f2 db host_id).state.pings, p.host ≠ h.hostname)) ∧
    (∀ st b, delete_host f1 f2 db host_id = .ok st b →
      (b = false ↔ get_host_by_id db host_id = none)) := by
  cases hfind : get_host_by_id db host_id with
  | none =>
    refine ⟨fun _ => by simp [delete_host, hfind], fun h hh => by simp [hfind] at hh, ?_⟩
    intro st b hok
    simp only [delete_host, hfind] at hok
    cases hok
    simp
  | some h =>
    have hmem : h ∈ db.hosts := List.mem_of_find?_eq_some hfind
    have hid : h.id = host_id := by
      have := List.find?_some hfind
      simpa using this
    refine ⟨fun hn => by simp [hfind] at hn, ?_, ?_⟩
    · intro h2 hh2
      injection hh2 with hx
      subst hx
      constructor
      · simp [delete_host, hfind]
      · intro hgone p hp
        cases f1 with
        | true =>
          have hst : (delete_host true f2 db host_id).state.hosts = db.hosts := by
            simp [delete_host, hfind, DelOutcome.state]
          rw [hst] at hgone
          exact absurd hid (hgone h hmem)
        | false =>
          cases f2 with
          | true =>
            have hst : (delete_host false true db host_id).state.hosts = db.hosts := by
              simp [delete_host, hfind, DelOutcome.state]
            rw [hst] at hgone
            exact absurd hid (hgone h hmem)
          | false =>
            simp only [delete_host, hfind, if_neg Bool.false_ne_true,
              DelOutcome.state, List.mem_filter] at hp
            simpa using hp.2
    · intro st b hok
      cases f1 with
      | true => simp [delete_host, hfind] at hok
      | false =>
        cases f2 with
        | true => simp [delete_host, hfind] at hok
        | false =>
          simp only [delete_host, hfind] at hok
          cases hok
          simp [hfind]

/-- Witness for C1: a fault-free delete on a concrete one-host store
removes the probe rows and the host row and returns True. -/
theorem delete_host_cascade_witness :
    delete_host false false
        ⟨[⟨"h", 5, none, false, some "e"⟩], [⟨1, "h", "H", true, 0⟩], 2⟩ 1 =
      .ok ⟨[], [], 2⟩ true := by
  have h :=
    ((delete_host_cascade
          ⟨[⟨"h", 5, none, false, some "e"⟩], [⟨1, "h", "H", true, 0⟩], 2⟩ 1
          false false).2.1 ⟨1, "h", "H", true, 0⟩ (by decide)).1
  rw [h]
  decide

/-- Counterexample for C1 as stated: the two DELETE statements commit in
separate transactions, so a failure of the second leaves the probe rows
for the hostname deleted while the host row remains — a state that is
neither the original one nor the fully-deleted one. -/
theorem delete_host_partial_state :
    (delete_host false true
          ⟨[⟨"h", 5, none, false, some "e"⟩], [⟨1, "h", "H", true, 0⟩], 2⟩ 1).state =
        ⟨[], [⟨1, "h", "H", true, 0⟩], 2⟩ ∧
      (⟨[], [⟨1, "h", "H", true, 0⟩], 2⟩ : DB) ≠
        ⟨[⟨"h", 5, none, false, some "e"⟩], [⟨1, "h", "H", true, 0⟩], 2⟩ := by
  decide

/-! ### Claim C2: delete_old_pings -/

/-- Claim C2: delete_old_pings removes all and only the probe rows with
timestamp strictly below the cutoff, leaves the hosts table alone, returns
exactly the number of rows removed, and an immediate second invocation
with the same cutoff returns 0. -/
theorem delete_old_pings_exact (db : DB) (cutoff : ℤ) :
    (∀ p ∈ (delete_old_pings db cutoff).2.pings, ¬p.timestamp < cutoff) ∧
    (∀ p ∈ db.pings, ¬p.timestamp < cutoff → p ∈ (delete_old_pings db cutoff).2.pings) ∧
    (∀ p ∈ db.pings, p.timestamp < cutoff → p ∉ (delete_old_pings db cutoff).2.pings) ∧
    (delete_old_pings db cutoff).2.hosts = db.hosts ∧
    (delete_old_pings db cutoff).1 =
        db.pings.length - (delete_old_pings db cutoff).2.pings.length ∧
    (delete_old_pings (delete_old_pings db cutoff).2 cutoff).1 = 0 := by
  refine ⟨?_, ?_, ?_, rfl, ?_, ?_⟩
  · intro p hp
    simp only [delete_old_pings, List.mem_filter] at hp
    simpa using hp.2
  · intro p hp hkeep
    simp only [delete_old_pings, List.mem_filter]
    exact ⟨hp, by simpa using hkeep⟩
  · intro p _ hlt hmem
    simp only [delete_old_pings, List.mem_filter] at hmem
    exact absurd hlt (by simpa using hmem.2)
  · have hperm :
        (db.pings.filter (fun p => decide (p.timestamp < cutoff))).length +
            (db.pings.filter (fun p => !decide (p.timestamp < cutoff))).length =
          db.pings.length := by
      simpa using (List.filter_append_perm
        (fun p => decide (p.timestamp < cutoff)) db.pings).length_eq
    simp only [delete_old_pings]
    omega
  · simp [delete_old_pings, List.filter_filter]

/-- Witness for C2: a concrete store with one old and one new row; the old
row is removed and counted, the new row is kept, and a second invocation
removes nothing. -/
theorem delete_old_pings_exact_witness :
    (⟨"a", 5, none, false, some "e"⟩ : PingResult) ∈
        (delete_old_pings
          ⟨[⟨"a", 1, none, false, some "e"⟩, ⟨"a", 5, none, false, some "e"⟩],
            [], 1⟩ 3).2.pings ∧
      (delete_old_pings
          (delete_old_pings
            ⟨[⟨"a", 1, none, false, some "e"⟩, ⟨"a", 5, none, false, some "e"⟩],
              [], 1⟩ 3).2 3).1 = 0 :=
  ⟨(delete_old_pings_exact
        ⟨[⟨"a", 1, none, false, some "e"⟩, ⟨"a", 5, none, false, some "e"⟩], [], 1⟩
        3).2.1 ⟨"a", 5, none, false, some "e"⟩ (by decide) (by decide),
    (delete_old_pings_exact
        ⟨[⟨"a", 1, none, false, some "e"⟩, ⟨"a", 5, none, false, some "e"⟩], [], 1⟩
        3).2.2.2.2.2⟩

/-! ### Claim C5: insert_ping_result and get_ping_data -/

/-- Claim C5: inserting a probe row and querying the surrounding window on
a store with no other row for that host in the window returns exactly that
one row; and in general get_ping_data returns only rows of the requested
host inside the inclusive range, ascending by timestamp, at most limit of
them, and all of them whenever the matching rows fit under the limit. -/
theorem insert_then_query (db : DB) (r : PingResult)
    (hno : ∀ p ∈ db.pings,
      pingMatch r.host (r.timestamp - 1) (r.timestamp + 1) p = false) :
    get_ping_data (insert_ping_result db r) r.host (r.timestamp - 1)
        (r.timestamp + 1) 1000 = [r] ∧
      ∀ (db2 : DB) (host : String) (s e : ℤ) (lim : ℕ),
        (∀ p ∈ get_ping_data db2 host s e lim,
          p.host = host ∧ s ≤ p.timestamp ∧ p.timestamp ≤ e) ∧
        List.Sorted tsLE (get_ping_data db2 host s e lim) ∧
        (get_ping_data db2 host s e lim).length ≤ lim ∧
        ((db2.pings.filter (pingMatch host s e)).length ≤ lim →
          List.Perm (get_ping_data db2 host s e lim)
            (db2.pings.filter (pingMatch host s e))) := by
  constructor
  · have hr : pingMatch r.host (r.timestamp - 1) (r.timestamp + 1) r = true := by
      simp [pingMatch]
    have hnil : db.pings.filter
        (pingMatch r.host (r.timestamp - 1) (r.timestamp + 1)) = [] := by
      rw [List.filter_eq_nil_iff]
      intro p hp
      simp [hno p hp]
    simp [get_ping_data, insert_ping_result, hnil, hr, List.insertionSort]
  · intro db2 host s e lim
    refine ⟨?_, ?_, ?_, ?_⟩
    · intro p hp
      have hp2 : p ∈ db2.pings.filter (pingMatch host s e) := by
        have := List.mem_of_mem_take hp
        simpa using this
      have := (List.mem_filter.mp hp2).2
      simp only [pingMatch, Bool.and_eq_true, beq_iff_eq, decide_eq_true_eq] at this
      exact ⟨this.1.1, this.1.2, this.2⟩
    · exact List.Pairwise.sublist (List.take_sublist _ _)
        (List.sorted_insertionSort tsLE _)
    · exact List.length_take_le _ _
    · intro hlen
      have hperm := List.perm_insertionSort tsLE (db2.pings.filter (pingMatch host s e))
      have hlen2 : (List.insertionSort tsLE
          (db2.pings.filter (pingMatch host s e))).length ≤ lim := by
        rw [hperm.length_eq]
        exact hlen
      rw [get_ping_data, List.take_of_length_le hlen2]
      exact hperm

/-- Witness for C5: a fresh row in an empty store is returned exactly. -/
theorem insert_then_query_witness :
    get_ping_data (insert_ping_result ⟨[], [], 1⟩ ⟨"h", 10, none, true, none⟩)
        "h" (10 - 1) (10 + 1) 1000 = [⟨"h", 10, none, true, none⟩] :=
  (insert_then_query ⟨[], [], 1⟩ ⟨"h", 10, none, true, none⟩ (by simp)).1

/-! ### Claim C6: add_host through the API -/

/-- Number of rows of the hosts table carrying a given hostname. -/
def countHostname (db : DB) (hn : String) : ℕ :=
  (db.hosts.filter (fun h => h.hostname == hn)).length

theorem countHostname_zero_iff (db : DB) (hn : String) :
    countHostname db hn = 0 ↔ get_host_by_hostname db hn = none := by
  simp [countHostname, get_host_by_hostname, List.length_eq_zero,
    List.filter_eq_nil_iff, List.find?_eq_none]

/-- Claim C6: on a store whose hosts table satisfies the schema UNIQUE
constraint for the hostname, calling the add-host route twice with the
same hostname makes the second call fail with ConflictError and leaves
exactly one host row with that hostname; and when the hostname is absent
the first call creates it with enabled true and created_at the current
clock reading. -/
theorem add_host_conflict (db : DB) (now1 now2 : ℤ) (hn dn1 dn2 : String)
    (huniq : countHostname db hn ≤ 1) :
    (add_host_api (add_host_api db now1 hn dn1).2 now2 hn dn2).1 =
        .error .conflict ∧
      countHostname (add_host_api (add_host_api db now1 hn dn1).2 now2 hn dn2).2 hn = 1 ∧
      (countHostname db hn = 0 →
        ∃ h, (add_host_api db now1 hn dn1).1 = .ok h ∧ h.hostname = hn ∧
          h.enabled = true ∧ h.created_at = now1 ∧
          get_host_by_hostname (add_host_api db now1 hn dn1).2 hn = some h) := by
  cases hfind : get_host_by_hostname db hn with
  | some h0 =>
    have hcount : countHostname db hn = 1 := by
      have hne : countHostname db hn ≠ 0 := by
        rw [Ne, countHostname_zero_iff, hfind]
        simp
      omega
    refine ⟨by simp [add_host_api, hfind], by simpa [add_host_api, hfind] using hcount, ?_⟩
    intro h0count
    exact absurd hcount (by omega)
  | none =>
    have hst : (add_host_api db now1 hn dn1).2 = (add_host db now1 hn dn1).1 := by
      simp [add_host_api, hfind]
    have hres : (add_host_api db now1 hn dn1).1 = .ok (add_host db now1 hn dn1).2 := by
      simp [add_host_api, hfind]
    have hfind2 : List.find? (fun h => h.hostname == hn) db.hosts = none := hfind
    have hnew : get_host_by_hostname (add_host db now1 hn dn1).1 hn =
        some ⟨db.nextHostId, hn, dn1, true, now1⟩ := by
      simp only [add_host, get_host_by_hostname]
      rw [List.find?_append, hfind2]
      simp
    refine ⟨?_, ?_, ?_⟩
    · rw [hst]
      simp [add_host_api, hnew]
    · rw [hst]
      have hsame : (add_host_api (add_host db now1 hn dn1).1 now2 hn dn2).2 =
          (add_host db now1 hn dn1).1 := by
        simp [add_host_api, hnew]
      rw [hsame]
      have hzero : countHostname db hn = 0 := (countHostname_zero_iff db hn).mpr hfind
      simp only [add_host, countHostname] at hzero ⊢
      rw [List.filter_append]
      rw [List.length_eq_zero] at hzero
      simp [hzero]
    · intro _
      refine ⟨⟨db.nextHostId, hn, dn1, true, now1⟩, ?_, rfl, rfl, rfl, ?_⟩
      · rw [hres]
        rfl
      · rw [hst]
        exact hnew

/-- Witness for C6: adding hostname h twice to an empty store. -/
theorem add_host_conflict_witness :
    (add_host_api (add_host_api ⟨[], [], 1⟩ 5 "h" "H").2 6 "h" "H2").1 =
        .error .conflict ∧
      countHostname (add_host_api (add_host_api ⟨[], [], 1⟩ 5 "h" "H").2 6 "h" "H2").2
        "h" = 1 :=
  ⟨(add_host_conflict ⟨[], [], 1⟩ 5 6 "h" "H" "H2" (by decide)).1,
    (add_host_conflict ⟨[], [], 1⟩ 5 6 "h" "H" "H2" (by decide)).2.1⟩

/-! ### Claims C7 and C10: calculate_stats -/

/-- The rows selected by the WHERE clause of calculate_stats. -/
def windowRows (db : DB) (host : String) (s e : ℤ) : List PingResult :=
  db.pings.filter (pingMatch host s e)

/-- Under the ProbeResult invariant, the non-NULL latencies of a row list
are exactly the latencies of its successful rows, so the NULL-skipping
SQL aggregates range over the successful rows. -/
theorem filterMap_latency_filter_success (l : List PingResult)
    (hinv : ∀ p ∈ l, (p.success = true → (p.latency).isSome = true) ∧
      (p.success = false → p.latency = none)) :
    (l.filter (fun p => p.success)).filterMap (fun p => p.latency) =
      l.filterMap (fun p => p.latency) := by
  induction l with
  | nil => rfl
  | cons p t ih =>
    have hp := hinv p (List.mem_cons_self p t)
    have ht := fun q hq => hinv q (List.mem_cons_of_mem p hq)
    cases hs : p.success with
    | true =>
      obtain ⟨a, ha⟩ := Option.isSome_iff_exists.mp (hp.1 hs)
      simp [List.filter_cons, hs, List.filterMap_cons, ha, ih ht]
    | false =>
      simp [List.filter_cons, hs, List.filterMap_cons, hp.2 hs, ih ht]

/-- Claim C7: on a store whose rows satisfy the ProbeResult invariant, a
window with N rows and S successes yields success_rate
round(S / N * 100, 2) when N is positive, with the three latency fields
computed from the latencies of the successful rows in the window (via
the NULL-skipping SQL aggregates and the round-or-None formatting); when
N = 0 all three latency fields are None and success_rate is 0. -/
theorem calculate_stats_window (db : DB) (host : String) (s e : ℤ)
    (hinv : ∀ p ∈ db.pings, (p.success = true → (p.latency).isSome = true) ∧
      (p.success = false → p.latency = none)) :
    ((windowRows db host s e).length = 0 →
      calculate_stats db host s e = ⟨none, none, none, 0⟩) ∧
    (0 < (windowRows db host s e).length →
      (calculate_stats db host s e).success_rate =
          round2 ((((windowRows db host s e).filter (fun p => p.success)).length : ℚ) /
            ((windowRows db host s e).length : ℚ) * 100) ∧
        (calculate_stats db host s e).avg_latency =
          fmtLat (sqlAvg (((windowRows db host s e).filter (fun p => p.success)).filterMap
            (fun p => p.latency))) ∧
        (calculate_stats db host s e).min_latency =
          fmtLat (sqlMin (((windowRows db host s e).filter (fun p => p.success)).filterMap
            (fun p => p.latency))) ∧
        (calculate_stats db host s e).max_latency =
          fmtLat (sqlMax (((windowRows db host s e).filter (fun p => p.success)).filterMap
            (fun p => p.latency)))) := by
  have hwin : ∀ p ∈ windowRows db host s e,
      (p.success = true → (p.latency).isSome = true) ∧
        (p.success = false → p.latency = none) := by
    intro p hp
    exact hinv p (List.mem_filter.mp (by simpa [windowRows] using hp)).1
  have hlats := filterMap_latency_filter_success (windowRows db host s e) hwin
  constructor
  · intro h0
    rw [List.length_eq_zero] at h0
    simp only [calculate_stats]
    rw [show db.pings.filter (pingMatch host s e) = windowRows db host s e from rfl, h0]
    simp
  · intro hpos
    have hne : (windowRows db host s e).length ≠ 0 := Nat.pos_iff_ne_zero.mp hpos
    simp only [calculate_stats]
    rw [show db.pings.filter (pingMatch host s e) = windowRows db host s e from rfl]
    rw [if_neg hne, hlats]
    exact ⟨rfl, rfl, rfl, rfl⟩

/-- Witness for C7: a window of two rows, one success with latency
round2 10 and one failure, gives success_rate round(1/2*100, 2) and
latency aggregates over the single successful latency. -/
theorem calculate_stats_window_witness :
    (calculate_stats
          ⟨[⟨"h", 5, some (round2 10), true, none⟩, ⟨"h", 6, none, false, some "e"⟩],
            [], 1⟩ "h" 0 10).success_rate =
        round2 (((1 : ℕ) : ℚ) / ((2 : ℕ) : ℚ) * 100) ∧
      (calculate_stats
          ⟨[⟨"h", 5, some (round2 10), true, none⟩, ⟨"h", 6, none, false, some "e"⟩],
            [], 1⟩ "h" 0 10).avg_latency = fmtLat (sqlAvg [round2 10]) := by
  have h :=
    (calculate_stats_window
        ⟨[⟨"h", 5, some (round2 10), true, none⟩, ⟨"h", 6, none, false, some "e"⟩],
          [], 1⟩ "h" 0 10 (by decide)).2 (by decide)
  have hS : ((windowRows
      ⟨[⟨"h", 5, some (round2 10), true, none⟩, ⟨"h", 6, none, false, some "e"⟩],
        [], 1⟩ "h" 0 10).filter (fun p => p.success)).length = 1 := by decide
  have hN : (windowRows
      ⟨[⟨"h", 5, some (round2 10), true, none⟩, ⟨"h", 6, none, false, some "e"⟩],
        [], 1⟩ "h" 0 10).length = 2 := by decide
  have hL : ((windowRows
      ⟨[⟨"h", 5, some (round2 10), true, none⟩, ⟨"h", 6, none, false, some "e"⟩],
        [], 1⟩ "h" 0 10).filter (fun p => p.success)).filterMap (fun p => p.latency) =
      [round2 10] := rfl
  rw [hS, hN, hL] at h
  exact ⟨h.1, h.2.1⟩

/-- Claim C10: a window with one successful row of latency 0 has positive
count and zero-valued latency aggregates, yet calculate_stats reports all
three latency fields as None: the round(v, 2) if v else None formatting
maps a zero aggregate to None exactly like an absent one. -/
theorem calculate_stats_zero_latency_null :
    0 < (windowRows ⟨[⟨"h", 5, some 0, true, none⟩], [], 1⟩ "h" 0 10).length ∧
      (windowRows ⟨[⟨"h", 5, some 0, true, none⟩], [], 1⟩ "h" 0 10).filter
          (fun p => p.success) ≠ [] ∧
      sqlAvg (((windowRows ⟨[⟨"h", 5, some 0, true, none⟩], [], 1⟩ "h" 0 10).filter
          (fun p => p.success)).filterMap (fun p => p.latency)) = some 0 ∧
      sqlMin (((windowRows ⟨[⟨"h", 5, some 0, true, none⟩], [], 1⟩ "h" 0 10).filter
          (fun p => p.success)).filterMap (fun p => p.latency)) = some 0 ∧
      sqlMax (((windowRows ⟨[⟨"h", 5, some 0, true, none⟩], [], 1⟩ "h" 0 10).filter
          (fun p => p.success)).filterMap (fun p => p.latency)) = some 0 ∧
      (calculate_stats ⟨[⟨"h", 5, some 0, true, none⟩], [], 1⟩ "h" 0 10).avg_latency =
          none ∧
      (calculate_stats ⟨[⟨"h", 5, some 0, true, none⟩], [], 1⟩ "h" 0 10).min_latency =
          none ∧
      (calculate_stats ⟨[⟨"h", 5, some 0, true, none⟩], [], 1⟩ "h" 0 10).max_latency =
          none := by
  have hL : ((windowRows ⟨[⟨"h", 5, some 0, true, none⟩], [], 1⟩ "h" 0 10).filter
      (fun p => p.success)).filterMap (fun p => p.latency) = [(0 : ℚ)] := rfl
  have hstats : calculate_stats ⟨[⟨"h", 5, some 0, true, none⟩], [], 1⟩ "h" 0 10 =
      ⟨fmtLat (sqlAvg [(0 : ℚ)]), fmtLat (sqlMin [(0 : ℚ)]), fmtLat (sqlMax [(0 : ℚ)]),
        round2 (((1 : ℕ) : ℚ) / ((1 : ℕ) : ℚ) * 100)⟩ := rfl
  have havg : fmtLat (sqlAvg [(0 : ℚ)]) = none := by
    simp [sqlAvg, fmtLat]
  have hmin : fmtLat (sqlMin [(0 : ℚ)]) = none := by
    simp [sqlMin, fmtLat]
  have hmax : fmtLat (sqlMax [(0 : ℚ)]) = none := by
    simp [sqlMax, fmtLat]
  refine ⟨by decide, by decide, ?_, ?_, ?_, ?_, ?_, ?_⟩
  · rw [hL]
    simp [sqlAvg]
  · rw [hL]
    simp [sqlMin]
  · rw [hL]
    simp [sqlMax]
  · rw [hstats]
    exact havg
  · rw [hstats]
    exact hmin
  · rw [hstats]
    exact hmax

/-! ### Claim C9: cleanup_now and vacuum_now -/

/-- Claim C9 (amended): cleanup_now and vacuum_now are total and always
return a structured result with a success flag, never propagating the
underlying fault; a successful call carries timestamp (and deleted_count
for cleanup) and no error; a failed call carries the error text (and
deleted_count 0 for cleanup) but no timestamp key. -/
theorem cleanup_vacuum_structured (opc : Except String ℕ) (opv : Except String Unit)
    (now : ℤ) :
    ((cleanup_now opc now).success = true →
      ((cleanup_now opc now).deleted_count).isSome = true ∧
        ((cleanup_now opc now).timestamp).isSome = true ∧
        (cleanup_now opc now).error = none) ∧
    ((cleanup_now opc now).success = false →
      ((cleanup_now opc now).error).isSome = true ∧
        (cleanup_now opc now).timestamp = none ∧
        (cleanup_now opc now).deleted_count = some 0) ∧
    ((vacuum_now opv now).success = true →
      ((vacuum_now opv now).timestamp).isSome = true ∧
        (vacuum_now opv now).error = none) ∧
    ((vacuum_now opv now).success = false →
      ((vacuum_now opv now).error).isSome = true ∧
        (vacuum_now opv now).timestamp = none) := by
  cases opc <;> cases opv <;> simp [cleanup_now, vacuum_now]

/-- Witness for C9: a succeeding cleanup and a failing vacuum. -/
theorem cleanup_vacuum_structured_witness :
    (((cleanup_now (.ok 5) 7).deleted_count).isSome = true ∧
        ((cleanup_now (.ok 5) 7).timestamp).isSome = true ∧
        (cleanup_now (.ok 5) 7).error = none) ∧
      ((vacuum_now (.error "x") 7).error).isSome = true ∧
        (vacuum_now (.error "x") 7).timestamp = none :=
  ⟨(cleanup_vacuum_structured (.ok 5) (.error "x") 7).1 rfl,
    (cleanup_vacuum_structured (.ok 5) (.error "x") 7).2.2.2 rfl⟩

/-- Counterexample for C9 as stated: the failure branches return a result
with no timestamp key at all, so the result of a failed call does not
contain both success and timestamp fields. -/
theorem cleanup_now_missing_timestamp :
    (cleanup_now (.error "disk full") 1000).success = false ∧
      (cleanup_now (.error "disk full") 1000).timestamp = none ∧
      (vacuum_now (.error "disk full") 1000).success = false ∧
      (vacuum_now (.error "disk full") 1000).timestamp = none :=
  ⟨rfl, rfl, rfl, rfl⟩

end NetMon
